import Mathlib

/-!
Verification of the meetup registry of `src/bot.py` (PlatanoBot).

The registry is a JSON file `{"meetups": [...]}` read by `get_meetups`,
written by `save_meetups`, with id allocation in `generate_meetup_id`,
creation in the `crear_quedada` command handler and deletion in the
`eliminar_quedada` command handler.  The definitions below embed those
functions; machine integers are modelled by `Nat` (ids in the store are
non-negative JSON integers produced by the allocator).
-/

namespace PlatanoBot

/-- One meetup record, as stored in `meetups.json`
(`id`, `title`, `description`, `date` (ISO string), `location`,
`status`, `participants`). -/
structure Meetup where
  id : Nat
  title : String
  description : String
  date : String
  location : String
  status : String
  participants : List String
deriving Repr, DecidableEq

/-- The parsed shape of the store file: `{"meetups": [...]}`. -/
structure MeetupsData where
  meetups : List Meetup
deriving Repr, DecidableEq

/-- Contents of the durable store file `data/meetups.json`:
either a representation that parses to a `MeetupsData`, or a
representation that exists but cannot be parsed (truncated, corrupt);
`json.load` raises on the latter. -/
inductive StoreContent where
  | parsable (d : MeetupsData)
  | unparsable
deriving Repr, DecidableEq

/-- `get_meetups` (bot.py lines 43-49): opens and parses the store; on
any exception (in particular an unparsable file) it logs the error and
returns `{"meetups": []}`. -/
def get_meetups : StoreContent → MeetupsData
  | .parsable d => d
  | .unparsable => { meetups := [] }

/-- `save_meetups` (bot.py lines 51-58), final state on the success
path: the store afterwards holds the serialized data.  I/O failures
(the `except` branch returning `False`) are outside this model. -/
def save_meetups (meetups_data : MeetupsData) : StoreContent :=
  .parsable meetups_data

/-- The sequence of store contents observable during `save_meetups`:
`open(MEETUPS_FILE, 'w')` truncates the file in place (a truncated
file does not parse as JSON), then `json.dump` writes the new
representation.  Each list element is a state a concurrently
interleaved read could observe. -/
def save_meetups_states (prev : StoreContent) (meetups_data : MeetupsData) :
    List StoreContent :=
  [prev, .unparsable, .parsable meetups_data]

/-- Python's `max` over a non-empty list, given its head and tail. -/
def pyListMax (x : Nat) : List Nat → Nat
  | [] => x
  | y :: ys => pyListMax (max x y) ys

/-- `generate_meetup_id` (bot.py lines 60-63):
`max(ids) + 1 if ids else 1` over the ids of the loaded store. -/
def generate_meetup_id (store : StoreContent) : Nat :=
  let meetups_data := get_meetups store
  let ids := meetups_data.meetups.map Meetup.id
  match ids with
  | [] => 1
  | x :: xs => pyListMax x xs + 1

/-- ASCII digit test, as matched by `\d` in the handler's regexes. -/
def isAsciiDigit (c : Char) : Bool := '0' ≤ c && c ≤ '9'

/-- Numeric value of an ASCII digit character. -/
def digitVal (c : Char) : Nat := c.toNat - '0'.toNat

/-- The `fecha` check of `crear_quedada`: the regex
`^\d{4}-\d{2}-\d{2}$` combined with `map(int, fecha.split('-'))`.
Returns `some (year, month, day)` exactly when the regex matches. -/
def parseFecha (s : String) : Option (Nat × Nat × Nat) :=
  match s.toList with
  | [a, b, c, d, '-', e, f, '-', g, h] =>
    if [a, b, c, d, e, f, g, h].all isAsciiDigit then
      some (digitVal a * 1000 + digitVal b * 100 + digitVal c * 10 + digitVal d,
            digitVal e * 10 + digitVal f,
            digitVal g * 10 + digitVal h)
    else none
  | _ => none

/-- The `hora` check of `crear_quedada`: the regex `^\d{2}:\d{2}$`
combined with `map(int, hora.split(':'))`.  Returns
`some (hours, minutes)` exactly when the regex matches. -/
def parseHora (s : String) : Option (Nat × Nat) :=
  match s.toList with
  | [a, b, ':', c, d] =>
    if [a, b, c, d].all isAsciiDigit then
      some (digitVal a * 10 + digitVal b, digitVal c * 10 + digitVal d)
    else none
  | _ => none

/-- Gregorian leap-year rule used by `datetime`. -/
def isLeapYear (y : Nat) : Bool :=
  (y % 4 == 0 && y % 100 != 0) || y % 400 == 0

/-- Number of days in a month, as validated by `datetime`. -/
def daysInMonth (y m : Nat) : Nat :=
  if m == 2 then (if isLeapYear y then 29 else 28)
  else if m == 4 || m == 6 || m == 9 || m == 11 then 30
  else 31

/-- Success condition of the CPython constructor
`datetime.datetime(year, month, day, hours, minutes)` (bot.py line
205): it raises `ValueError` unless `MINYEAR (1) <= year <= MAXYEAR
(9999)`, `1 <= month <= 12`, `1 <= day <= days in that month`,
`0 <= hour <= 23` and `0 <= minute <= 59`. -/
def datetimeValid (y m d hh mm : Nat) : Bool :=
  1 ≤ y && y ≤ 9999 && 1 ≤ m && m ≤ 12 && 1 ≤ d && d ≤ daysInMonth y m &&
    hh ≤ 23 && mm ≤ 59

/-- Two-digit zero padding, as in `isoformat`. -/
def pad2 (n : Nat) : String := if n < 10 then "0" ++ toString n else toString n

/-- Four-digit zero padding of the year, as in `isoformat`. -/
def pad4 (n : Nat) : String :=
  if n < 10 then "000" ++ toString n
  else if n < 100 then "00" ++ toString n
  else if n < 1000 then "0" ++ toString n
  else toString n

/-- `date.isoformat()` for a UTC datetime with zero seconds (bot.py
line 214): `YYYY-MM-DDTHH:MM:00+00:00`. -/
def isoformat (y m d hh mm : Nat) : String :=
  pad4 y ++ "-" ++ pad2 m ++ "-" ++ pad2 d ++ "T" ++ pad2 hh ++ ":" ++
    pad2 mm ++ ":00+00:00"

/-- Outcome of the `crear_quedada` handler, one constructor per
user-visible reply: the three validation refusals (format of `fecha`,
format of `hora`, `ValueError` from `datetime`), success, and the
save-failure reply (not produced in this model, where I/O succeeds). -/
inductive CreateResult where
  | formatDateError
  | formatTimeError
  | invalidDateError
  | created (m : Meetup)
  | saveError
deriving Repr, DecidableEq

/-- Validation refusals of `crear_quedada`: the replies sent without
touching the store. -/
def isValidationRejection : CreateResult → Bool
  | .formatDateError => true
  | .formatTimeError => true
  | .invalidDateError => true
  | _ => false

/-- `crear_quedada` (bot.py lines 181-242): checks `fecha` against
`^\d{4}-\d{2}-\d{2}$`, `hora` against `^\d{2}:\d{2}$`, builds the
`datetime` (rejecting on `ValueError`), then constructs the new meetup
with `generate_meetup_id()`, appends it to the loaded data and saves.
Returns the handler outcome and the store contents afterwards. -/
def crear_quedada (titulo descripcion fecha hora lugar estado : String)
    (store : StoreContent) : CreateResult × StoreContent :=
  match parseFecha fecha with
  | none => (.formatDateError, store)
  | some (y, m, d) =>
    match parseHora hora with
    | none => (.formatTimeError, store)
    | some (hh, mm) =>
      if datetimeValid y m d hh mm then
        let new_meetup : Meetup :=
          { id := generate_meetup_id store
            title := titulo
            description := descripcion
            date := isoformat y m d hh mm
            location := lugar
            status := estado
            participants := [] }
        let meetups_data := get_meetups store
        (.created new_meetup,
          save_meetups { meetups := meetups_data.meetups ++ [new_meetup] })
      else (.invalidDateError, store)

/-- Outcome of the `eliminar_quedada` handler: permission refusal,
id-not-found refusal, success carrying the removed record, and the
save-failure reply (not produced in this model). -/
inductive DeleteResult where
  | permissionError
  | notFoundError (id : Nat)
  | deleted (m : Meetup)
  | saveError
deriving Repr, DecidableEq

/-- The scan-and-delete of `eliminar_quedada` (bot.py lines 420-432):
find the first index whose record has the requested id, read the
record there, `del` it.  `none` when no record matches. -/
def removeById (id_quedada : Nat) : List Meetup → Option (Meetup × List Meetup)
  | [] => none
  | m :: rest =>
    if m.id == id_quedada then some (m, rest)
    else
      match removeById id_quedada rest with
      | none => none
      | some (found, rest2) => some (found, m :: rest2)

/-- `eliminar_quedada` (bot.py lines 411-447): refuses when the caller
lacks the `manage_messages` permission, otherwise loads the store,
scans for the id (replying not-found without saving when absent) and
on a hit deletes the record and saves.  Returns the handler outcome
and the store contents afterwards. -/
def eliminar_quedada (has_manage_messages : Bool) (id_quedada : Nat)
    (store : StoreContent) : DeleteResult × StoreContent :=
  if !has_manage_messages then (.permissionError, store)
  else
    let meetups_data := get_meetups store
    match removeById id_quedada meetups_data.meetups with
    | none => (.notFoundError id_quedada, store)
    | some (meetup, rest) => (.deleted meetup, save_meetups { meetups := rest })

/-- The store created at first run (bot.py lines 38-41):
`{"meetups": []}`. -/
def initStore : StoreContent := .parsable { meetups := [] }

/-- One registry operation issued to the bot: a create with the six
string arguments of `crear_quedada`, or a delete with the caller's
permission bit and the requested id. -/
inductive Op where
  | create (titulo descripcion fecha hora lugar estado : String)
  | delete (has_manage_messages : Bool) (id_quedada : Nat)
deriving Repr, DecidableEq

/-- Whether an operation is a create. -/
def Op.isCreate : Op → Bool
  | .create _ _ _ _ _ _ => true
  | .delete _ _ => false

/-- Effect of one operation on the store (operations executed one at a
time, as the sequential handlers do). -/
def applyOp : Op → StoreContent → StoreContent
  | .create t de f h l e, s => (crear_quedada t de f h l e s).2
  | .delete p i, s => (eliminar_quedada p i s).2

/-- Store after a sequence of operations. -/
def runOps (ops : List Op) (s : StoreContent) : StoreContent :=
  ops.foldl (fun s op => applyOp op s) s

/-- The ids present in the loaded store. -/
def idsOf (s : StoreContent) : List Nat :=
  (get_meetups s).meetups.map Meetup.id

/-- Maximum of a list of naturals (`0` when empty). -/
def maxNat (l : List Nat) : Nat := l.foldr max 0

/-- The id-allocation rule as the specification states it:
`(max of all existing ids) + 1`, or `1` if the registry is empty. -/
def specNextId (ids : List Nat) : Nat :=
  if ids.isEmpty then 1 else maxNat ids + 1

/-- Combined date/time validity of the two string inputs: both match
their format regex and the decoded values form a valid calendar date
and time of day. -/
def dateInputValid (fecha hora : String) : Bool :=
  match parseFecha fecha, parseHora hora with
  | some (y, m, d), some (hh, mm) => datetimeValid y m d hh mm
  | _, _ => false

/-- Registry invariant: ids are pairwise distinct and strictly positive. -/
def GoodIds (s : StoreContent) : Prop :=
  (idsOf s).Nodup ∧ ∀ i ∈ idsOf s, 0 < i

theorem pyListMax_eq_max_foldr (xs : List Nat) :
    ∀ x, pyListMax x xs = max x (xs.foldr max 0) := by
  induction xs with
  | nil => intro x; simp [pyListMax]
  | cons y ys ih =>
    intro x
    simp only [pyListMax, List.foldr_cons, ih (max x y), max_assoc]

theorem le_maxNat_of_mem {i : Nat} {l : List Nat} (h : i ∈ l) : i ≤ maxNat l := by
  induction l with
  | nil => cases h
  | cons x xs ih =>
    simp only [maxNat, List.foldr_cons]
    rcases List.mem_cons.mp h with h1 | h2
    · subst h1; exact le_max_left _ _
    · exact le_trans (ih h2) (le_max_right _ _)

theorem maxNat_le {b : Nat} {l : List Nat} (h : ∀ i ∈ l, i ≤ b) : maxNat l ≤ b := by
  induction l with
  | nil => simp [maxNat]
  | cons x xs ih =>
    simp only [maxNat, List.foldr_cons] at ih ⊢
    exact max_le (h x (by simp)) (ih fun i hi => h i (by simp [hi]))

theorem maxNat_mem {l : List Nat} (h : l ≠ []) : maxNat l ∈ l := by
  induction l with
  | nil => simp at h
  | cons x xs ih =>
    cases xs with
    | nil => simp [maxNat]
    | cons y ys =>
      have hm : maxNat (x :: y :: ys) = max x (maxNat (y :: ys)) := rfl
      rcases le_total (maxNat (y :: ys)) x with h1 | h1
      · rw [hm, max_eq_left h1]; exact List.mem_cons_self _ _
      · rw [hm, max_eq_right h1]
        exact List.mem_cons_of_mem _ (ih (by simp))

theorem generate_meetup_id_def (s : StoreContent) :
    generate_meetup_id s =
      match idsOf s with
      | [] => 1
      | x :: xs => pyListMax x xs + 1 := rfl

/-- The allocator refines the specification's rule
`next_id = (max of all existing ids) + 1`, or `1` when empty. -/
theorem generate_meetup_id_eq_spec (s : StoreContent) :
    generate_meetup_id s = specNextId (idsOf s) := by
  rw [generate_meetup_id_def]
  cases h : idsOf s with
  | nil => simp [specNextId, h]
  | cons x xs =>
    simp [specNextId, h, maxNat, pyListMax_eq_max_foldr]

theorem lt_generate_of_mem {i : Nat} {s : StoreContent} (h : i ∈ idsOf s) :
    i < generate_meetup_id s := by
  rw [generate_meetup_id_eq_spec]
  have hne : ¬ (idsOf s).isEmpty := by
    cases hl : idsOf s with
    | nil => rw [hl] at h; cases h
    | cons x xs => simp
  have := le_maxNat_of_mem h
  simp only [specNextId, hne, if_false, Bool.false_eq_true]
  omega

theorem one_le_generate (s : StoreContent) : 1 ≤ generate_meetup_id s := by
  rw [generate_meetup_id_eq_spec, specNextId]
  split <;> omega

theorem idsOf_parsable (l : List Meetup) :
    idsOf (.parsable ⟨l⟩) = l.map Meetup.id := rfl

theorem crear_quedada_invalid (t de f h l e : String) (s : StoreContent)
    (hv : dateInputValid f h = false) :
    (crear_quedada t de f h l e s).2 = s ∧
      isValidationRejection (crear_quedada t de f h l e s).1 = true := by
  unfold crear_quedada
  unfold dateInputValid at hv
  cases hf : parseFecha f with
  | none => simp [hf, isValidationRejection]
  | some v =>
    obtain ⟨y, m, d⟩ := v
    cases hh : parseHora h with
    | none => simp [hf, hh, isValidationRejection]
    | some w =>
      obtain ⟨hrs, mins⟩ := w
      simp only [hf, hh] at hv
      simp [hf, hh, hv, isValidationRejection]

theorem crear_quedada_valid (t de f h l e : String) (s : StoreContent)
    (hv : dateInputValid f h = true) :
    ∃ m : Meetup, crear_quedada t de f h l e s =
        (.created m, .parsable ⟨(get_meetups s).meetups ++ [m]⟩) ∧
      m.id = generate_meetup_id s ∧ m.title = t ∧ m.description = de ∧
      m.location = l ∧ m.status = e ∧ m.participants = [] := by
  unfold crear_quedada
  unfold dateInputValid at hv
  cases hf : parseFecha f with
  | none => rw [hf] at hv; cases hv
  | some v =>
    obtain ⟨y, m, d⟩ := v
    cases hh : parseHora h with
    | none => rw [hf, hh] at hv; cases hv
    | some w =>
      obtain ⟨hrs, mins⟩ := w
      simp only [hf, hh] at hv
      refine ⟨⟨generate_meetup_id s, t, de, isoformat y m d hrs mins, l, e, []⟩,
        ?_, rfl, rfl, rfl, rfl, rfl, rfl⟩
      simp [hf, hh, hv, save_meetups]

theorem crear_quedada_created {t de f h l e : String} {s : StoreContent}
    {m : Meetup} (hc : (crear_quedada t de f h l e s).1 = .created m) :
    m.id = generate_meetup_id s ∧
      (crear_quedada t de f h l e s).2 =
        .parsable ⟨(get_meetups s).meetups ++ [m]⟩ := by
  cases hv : dateInputValid f h with
  | false =>
    have hr := (crear_quedada_invalid t de f h l e s hv).2
    rw [hc] at hr
    cases hr
  | true =>
    obtain ⟨m', heq, hid, _⟩ := crear_quedada_valid t de f h l e s hv
    rw [heq] at hc
    simp only [CreateResult.created.injEq] at hc
    subst hc
    exact ⟨hid, by rw [heq]⟩

theorem mem_idsOf_crear {i : Nat} (t de f h l e : String) (s : StoreContent)
    (hi : i ∈ idsOf s) : i ∈ idsOf (crear_quedada t de f h l e s).2 := by
  cases hv : dateInputValid f h with
  | false => rw [(crear_quedada_invalid t de f h l e s hv).1]; exact hi
  | true =>
    obtain ⟨m, heq, _⟩ := crear_quedada_valid t de f h l e s hv
    rw [heq]
    simp only [idsOf_parsable, List.map_append]
    exact List.mem_append_left _ hi

theorem removeById_eq_none {id : Nat} {l : List Meetup}
    (h : ∀ x ∈ l, x.id ≠ id) : removeById id l = none := by
  induction l with
  | nil => rfl
  | cons a as ih =>
    have ha : a.id ≠ id := h a (by simp)
    simp only [removeById, beq_iff_eq, if_neg ha,
      ih fun x hx => h x (by simp [hx])]

theorem removeById_some {id : Nat} {l : List Meetup} {m : Meetup}
    {rest : List Meetup} (h : removeById id l = some (m, rest)) :
    m.id = id ∧ ∃ l₁ l₂, l = l₁ ++ m :: l₂ ∧ rest = l₁ ++ l₂ ∧
      ∀ x ∈ l₁, x.id ≠ id := by
  induction l generalizing m rest with
  | nil => cases h
  | cons a as ih =>
    simp only [removeById, beq_iff_eq] at h
    by_cases ha : a.id = id
    · rw [if_pos ha] at h
      obtain ⟨h1, h2⟩ := Prod.mk.injEq .. ▸ Option.some.inj h
      subst h1; subst h2
      exact ⟨ha, [], as, rfl, rfl, by simp⟩
    · rw [if_neg ha] at h
      cases hr : removeById id as with
      | none => rw [hr] at h; cases h
      | some p =>
        obtain ⟨m', rest'⟩ := p
        rw [hr] at h
        obtain ⟨h1, h2⟩ := Prod.mk.injEq .. ▸ Option.some.inj h
        subst h1; subst h2
        obtain ⟨hmid, l₁, l₂, hl, hrest, hl₁⟩ := ih hr
        refine ⟨hmid, a :: l₁, l₂, by simp [hl], by simp [hrest], ?_⟩
        intro x hx
        rcases List.mem_cons.mp hx with h3 | h3
        · subst h3; exact ha
        · exact hl₁ x h3

theorem removeById_append {id : Nat} (l₁ : List Meetup) (m : Meetup)
    (l₂ : List Meetup) (h1 : ∀ x ∈ l₁, x.id ≠ id) (hm : m.id = id) :
    removeById id (l₁ ++ m :: l₂) = some (m, l₁ ++ l₂) := by
  induction l₁ with
  | nil => simp [removeById, hm]
  | cons a as ih =>
    have ha : a.id ≠ id := h1 a (by simp)
    simp only [List.cons_append, removeById, beq_iff_eq, if_neg ha,
      List.append_eq, ih fun x hx => h1 x (by simp [hx])]

theorem removeById_none_forall {id : Nat} {l : List Meetup}
    (h : removeById id l = none) : ∀ x ∈ l, x.id ≠ id := by
  induction l with
  | nil => intro x hx; cases hx
  | cons a as ih =>
    intro x hx
    simp only [removeById, beq_iff_eq] at h
    by_cases ha : a.id = id
    · rw [if_pos ha] at h; cases h
    · rw [if_neg ha] at h
      cases hr : removeById id as with
      | some p =>
        obtain ⟨m', rest'⟩ := p
        rw [hr] at h
        simp at h
      | none =>
        rcases List.mem_cons.mp hx with h1 | h1
        · subst h1; exact ha
        · exact ih hr x h1

theorem eliminar_quedada_not_mem (id : Nat) (s : StoreContent)
    (h : id ∉ idsOf s) :
    eliminar_quedada true id s = (.notFoundError id, s) := by
  have hx : ∀ x ∈ (get_meetups s).meetups, x.id ≠ id := by
    intro x hxm heq
    exact h (heq ▸ List.mem_map_of_mem Meetup.id hxm)
  simp [eliminar_quedada, removeById_eq_none hx]

theorem eliminar_quedada_found {id : Nat} {s : StoreContent} {m : Meetup}
    {rest : List Meetup}
    (hr : removeById id (get_meetups s).meetups = some (m, rest)) :
    eliminar_quedada true id s = (.deleted m, .parsable ⟨rest⟩) := by
  simp [eliminar_quedada, hr, save_meetups]

theorem eliminar_quedada_snd (p : Bool) (id : Nat) (s : StoreContent) :
    (eliminar_quedada p id s).2 = s ∨
      ∃ m rest, removeById id (get_meetups s).meetups = some (m, rest) ∧
        (eliminar_quedada p id s).2 = .parsable ⟨rest⟩ := by
  cases p with
  | false => left; rfl
  | true =>
    cases hr : removeById id (get_meetups s).meetups with
    | none => left; simp [eliminar_quedada, hr]
    | some pr =>
      obtain ⟨m, rest⟩ := pr
      right
      exact ⟨m, rest, rfl, by rw [eliminar_quedada_found hr]⟩

theorem mem_idsOf_eliminar {j d : Nat} {s : StoreContent}
    (hj : j ∈ idsOf s) (hne : j ≠ d) :
    j ∈ idsOf (eliminar_quedada true d s).2 := by
  rcases eliminar_quedada_snd true d s with h2 | ⟨m0, rest, hr, h2⟩
  · rw [h2]; exact hj
  · rw [h2]
    obtain ⟨hm0, l₁, l₂, hl, hrest, _⟩ := removeById_some hr
    obtain ⟨x, hx, hxid⟩ := List.mem_map.mp hj
    rw [hl] at hx
    subst hrest
    have hxne : x ≠ m0 := fun hxx => hne (by rw [← hxid, hxx, hm0])
    have hx2 : x ∈ l₁ ++ l₂ := by
      rcases List.mem_append.mp hx with h3 | h3
      · exact List.mem_append_left _ h3
      · rcases List.mem_cons.mp h3 with h4 | h4
        · exact absurd h4 hxne
        · exact List.mem_append_right _ h4
    simp only [idsOf_parsable]
    exact hxid ▸ List.mem_map_of_mem Meetup.id hx2

theorem goodIds_applyOp (op : Op) (s : StoreContent) (h : GoodIds s) :
    GoodIds (applyOp op s) := by
  obtain ⟨hnd, hpos⟩ := h
  cases op with
  | create t de f hh l e =>
    show GoodIds (crear_quedada t de f hh l e s).2
    cases hv : dateInputValid f hh with
    | false =>
      rw [(crear_quedada_invalid t de f hh l e s hv).1]
      exact ⟨hnd, hpos⟩
    | true =>
      obtain ⟨m, heq, hid, _⟩ := crear_quedada_valid t de f hh l e s hv
      have h2 : (crear_quedada t de f hh l e s).2 =
          .parsable ⟨(get_meetups s).meetups ++ [m]⟩ := by rw [heq]
      rw [h2]
      have hfresh : m.id ∉ idsOf s := fun hin =>
        absurd (hid ▸ lt_generate_of_mem hin) (lt_irrefl _)
      constructor
      · simp only [idsOf_parsable, List.map_append, List.map_cons, List.map_nil]
        rw [List.nodup_append]
        exact ⟨hnd, List.nodup_singleton _,
          fun a ha hb => hfresh ((List.mem_singleton.mp hb) ▸ ha)⟩
      · intro i hi
        simp only [idsOf_parsable, List.map_append, List.map_cons,
          List.map_nil] at hi
        rcases List.mem_append.mp hi with h3 | h3
        · exact hpos i h3
        · have : i = m.id := List.mem_singleton.mp h3
          have := one_le_generate s
          omega
  | delete p i =>
    show GoodIds (eliminar_quedada p i s).2
    rcases eliminar_quedada_snd p i s with h2 | ⟨m, rest, hr, h2⟩
    · rw [h2]; exact ⟨hnd, hpos⟩
    · rw [h2]
      obtain ⟨hmid, l₁, l₂, hl, hrest, _⟩ := removeById_some hr
      have hsub : rest.Sublist (get_meetups s).meetups := by
        rw [hl, hrest]
        exact List.Sublist.append_left (List.sublist_cons_self m l₂) l₁
      have hsubids : (rest.map Meetup.id).Sublist (idsOf s) := hsub.map Meetup.id
      exact ⟨hnd.sublist hsubids, fun i hi => hpos i (hsubids.subset hi)⟩

theorem goodIds_init : GoodIds initStore :=
  ⟨List.nodup_nil, fun i hi => by cases hi⟩

theorem runOps_cons (op : Op) (ops : List Op) (s : StoreContent) :
    runOps (op :: ops) s = runOps ops (applyOp op s) := rfl

theorem goodIds_runOps (ops : List Op) (s : StoreContent) (h : GoodIds s) :
    GoodIds (runOps ops s) := by
  induction ops generalizing s with
  | nil => exact h
  | cons op ops ih =>
    rw [runOps_cons]
    exact ih _ (goodIds_applyOp op s h)

theorem mem_idsOf_runOps_creates {i : Nat} (ops : List Op) (s : StoreContent)
    (hc : ∀ op ∈ ops, op.isCreate = true) (hi : i ∈ idsOf s) :
    i ∈ idsOf (runOps ops s) := by
  induction ops generalizing s with
  | nil => exact hi
  | cons op ops ih =>
    rw [runOps_cons]
    have h1 : i ∈ idsOf (applyOp op s) := by
      cases op with
      | create t de f h l e => exact mem_idsOf_crear t de f h l e s hi
      | delete p j =>
        have := hc _ (List.mem_cons_self _ _)
        simp [Op.isCreate] at this
    exact ih _ (fun op hop => hc op (List.mem_cons_of_mem _ hop)) h1

/-- C1: In every registry state reachable from the empty registry by
any sequence of create and delete operations executed one at a time,
all meetup ids are pairwise distinct and strictly positive; and the ids
returned by successive create operations (with only create operations
in between) are strictly increasing. -/
theorem c1_ids_distinct_positive_increasing :
    (∀ ops : List Op, (idsOf (runOps ops initStore)).Nodup ∧
        ∀ i ∈ idsOf (runOps ops initStore), 0 < i) ∧
    (∀ (ops mid : List Op)
        (t1 d1 f1 h1 l1 e1 t2 d2 f2 h2 l2 e2 : String) (m1 m2 : Meetup),
        (∀ op ∈ mid, op.isCreate = true) →
        (crear_quedada t1 d1 f1 h1 l1 e1 (runOps ops initStore)).1 =
          .created m1 →
        (crear_quedada t2 d2 f2 h2 l2 e2
            (runOps mid
              (crear_quedada t1 d1 f1 h1 l1 e1 (runOps ops initStore)).2)).1 =
          .created m2 →
        m1.id < m2.id) := by
  constructor
  · exact fun ops => goodIds_runOps ops initStore goodIds_init
  · intro ops mid t1 d1 f1 h1 l1 e1 t2 d2 f2 h2 l2 e2 m1 m2 hmid hc1 hc2
    obtain ⟨hid1, hsnd1⟩ := crear_quedada_created hc1
    obtain ⟨hid2, hsnd2⟩ := crear_quedada_created hc2
    have hm1 : m1.id ∈
        idsOf (crear_quedada t1 d1 f1 h1 l1 e1 (runOps ops initStore)).2 := by
      rw [hsnd1]
      simp [idsOf_parsable]
    have hm1b := mem_idsOf_runOps_creates mid _ hmid hm1
    have hlt := lt_generate_of_mem hm1b
    rw [hid2]
    exact hlt

/-- Witness for C1: from the empty registry, a first create returns
id 1 and an immediately following create returns id 2. -/
theorem c1_witness :
    (Meetup.mk 1 "A" "a" "2024-06-01T10:00:00+00:00" "P" "activo" []).id <
      (Meetup.mk 2 "B" "b" "2024-06-02T11:00:00+00:00" "P" "activo" []).id :=
  c1_ids_distinct_positive_increasing.2 [] []
    "A" "a" "2024-06-01" "10:00" "P" "activo"
    "B" "b" "2024-06-02" "11:00" "P" "activo"
    (Meetup.mk 1 "A" "a" "2024-06-01T10:00:00+00:00" "P" "activo" [])
    (Meetup.mk 2 "B" "b" "2024-06-02T11:00:00+00:00" "P" "activo" [])
    (by intro op hop; cases hop) (by decide) (by decide)

/-- Three valid creates from the empty registry, producing ids 1, 2, 3. -/
def cexOps3 : List Op :=
  [Op.create "A" "a" "2024-06-01" "10:00" "P" "activo",
   Op.create "B" "b" "2024-06-02" "11:00" "P" "activo",
   Op.create "C" "c" "2024-06-03" "12:00" "P" "pendiente"]

/-- C2 counterexample: After creates yielding ids 1, 2, 3, id 2 is
deleted while strictly below the then-current maximum 3, and id 3 is
deleted while equal to the then-current maximum; yet the very next
create returns id 2 — so a deleted id smaller than the current maximum
IS later reassigned, and the deleted current maximum 3 is NOT
reassigned on the next create. -/
theorem c2_counterexample :
    idsOf (runOps cexOps3 initStore) = [1, 2, 3] ∧
    maxNat (idsOf (runOps cexOps3 initStore)) = 3 ∧
    idsOf (runOps (cexOps3 ++ [Op.delete true 2]) initStore) = [1, 3] ∧
    maxNat (idsOf (runOps (cexOps3 ++ [Op.delete true 2]) initStore)) = 3 ∧
    (crear_quedada "D" "d" "2024-06-04" "13:00" "P" "activo"
        (runOps (cexOps3 ++ [Op.delete true 2, Op.delete true 3])
          initStore)).1 =
      CreateResult.created
        (Meetup.mk 2 "D" "d" "2024-06-04T13:00:00+00:00" "P" "activo" []) := by
  decide

/-- C2 amended: The id assigned to a newly created meetup equals
`(max of all existing ids) + 1`, and `1` when the registry is empty.
Consequently (a) a deleted id smaller than the current maximum is never
reassigned by a later create as long as no further delete intervenes,
and (b) a deleted id equal to the current maximum `M` is reassigned on
the next create provided the registry also contains id `M - 1` (as it
does when ids are contiguous). -/
theorem c2_amended :
    (∀ s : StoreContent, generate_meetup_id s = specNextId (idsOf s)) ∧
    (∀ (s : StoreContent) (d : Nat), d ∈ idsOf s → d < maxNat (idsOf s) →
      ∀ mid : List Op, (∀ op ∈ mid, op.isCreate = true) →
      ∀ (t de f h l e : String) (m : Meetup),
        (crear_quedada t de f h l e
            (runOps mid (eliminar_quedada true d s).2)).1 = .created m →
        m.id ≠ d) ∧
    (∀ (s : StoreContent) (M : Nat), (idsOf s).Nodup → M ∈ idsOf s →
      maxNat (idsOf s) = M → 1 ≤ M → M - 1 ∈ idsOf s →
      ∀ (t de f h l e : String) (m : Meetup),
        (crear_quedada t de f h l e (eliminar_quedada true M s).2).1 =
          .created m →
        m.id = M) := by
  refine ⟨generate_meetup_id_eq_spec, ?_, ?_⟩
  · intro s d hd hlt mid hmid t de f h l e m hc
    have hne : idsOf s ≠ [] := by
      intro h0
      rw [h0] at hd
      cases hd
    have hMmem : maxNat (idsOf s) ∈ idsOf s := maxNat_mem hne
    have hM1 : maxNat (idsOf s) ∈ idsOf (eliminar_quedada true d s).2 :=
      mem_idsOf_eliminar hMmem (by omega)
    have hM2 := mem_idsOf_runOps_creates mid _ hmid hM1
    obtain ⟨hid, _⟩ := crear_quedada_created hc
    have := lt_generate_of_mem hM2
    omega
  · intro s M hnd hmem hM h1M hM1 t de f h l e m hc
    obtain ⟨x, hxmem, hxid⟩ := List.mem_map.mp hmem
    cases hr : removeById M (get_meetups s).meetups with
    | none => exact absurd hxid (removeById_none_forall hr x hxmem)
    | some p =>
      obtain ⟨m0, rest⟩ := p
      have helim := eliminar_quedada_found hr
      have hsnd : (eliminar_quedada true M s).2 = .parsable ⟨rest⟩ := by
        rw [helim]
      obtain ⟨hm0, l₁, l₂, hl, hrest, _⟩ := removeById_some hr
      have hids : idsOf s = l₁.map Meetup.id ++ M :: l₂.map Meetup.id := by
        unfold idsOf
        rw [hl]
        simp [hm0]
      have hnodup2 : (M :: (l₁.map Meetup.id ++ l₂.map Meetup.id)).Nodup := by
        rw [hids] at hnd
        exact List.nodup_middle.mp hnd
      have hMnot : M ∉ l₁.map Meetup.id ++ l₂.map Meetup.id :=
        (List.nodup_cons.mp hnodup2).1
      have hub : ∀ i ∈ l₁.map Meetup.id ++ l₂.map Meetup.id, i ≤ M - 1 := by
        intro i hi
        have hin : i ∈ idsOf s := by
          rw [hids]
          rcases List.mem_append.mp hi with h3 | h3
          · exact List.mem_append_left _ h3
          · exact List.mem_append_right _ (List.mem_cons_of_mem _ h3)
        have hiM : i ≤ M := hM ▸ le_maxNat_of_mem hin
        have hneM : i ≠ M := fun h4 => hMnot (h4 ▸ hi)
        omega
      have hM1mem : M - 1 ∈ l₁.map Meetup.id ++ l₂.map Meetup.id := by
        rw [hids] at hM1
        rcases List.mem_append.mp hM1 with h3 | h3
        · exact List.mem_append_left _ h3
        · rcases List.mem_cons.mp h3 with h4 | h4
          · omega
          · exact List.mem_append_right _ h4
      have hmax : maxNat (l₁.map Meetup.id ++ l₂.map Meetup.id) = M - 1 :=
        le_antisymm (maxNat_le hub) (le_maxNat_of_mem hM1mem)
      have hgen : generate_meetup_id (.parsable ⟨rest⟩) = M := by
        rw [generate_meetup_id_eq_spec, idsOf_parsable, hrest, List.map_append]
        unfold specNextId
        have hne2 : (l₁.map Meetup.id ++ l₂.map Meetup.id).isEmpty = false := by
          cases hcase : l₁.map Meetup.id ++ l₂.map Meetup.id with
          | nil => rw [hcase] at hM1mem; cases hM1mem
          | cons a as => simp
        rw [hne2]
        simp only [Bool.false_eq_true, if_false, hmax]
        omega
      rw [hsnd] at hc
      obtain ⟨hid, _⟩ := crear_quedada_created hc
      rw [hid, hgen]

/-- A registry holding ids 1, 2, 3, used to witness the amended C2. -/
def store123 : StoreContent :=
  .parsable ⟨[Meetup.mk 1 "A" "a" "2024-06-01T10:00:00+00:00" "P" "activo" [],
              Meetup.mk 2 "B" "b" "2024-06-02T11:00:00+00:00" "P" "activo" [],
              Meetup.mk 3 "C" "c" "2024-06-03T12:00:00+00:00" "P" "pendiente" []]⟩

/-- Witness for the amended C2: deleting id 2 (below the maximum 3)
from the 1-2-3 registry makes the next create return id 4 ≠ 2, and
deleting the maximum 3 (with 2 still present) makes the next create
return exactly 3. -/
theorem c2_witness :
    (Meetup.mk 4 "E" "e" "2024-07-01T09:00:00+00:00" "P" "activo" []).id ≠ 2 ∧
    (Meetup.mk 3 "F" "f" "2024-07-02T09:00:00+00:00" "P" "activo" []).id = 3 := by
  constructor
  · exact c2_amended.2.1 store123 2 (by decide) (by decide) []
      (by intro op hop; cases hop) "E" "e" "2024-07-01" "09:00" "P" "activo"
      (Meetup.mk 4 "E" "e" "2024-07-01T09:00:00+00:00" "P" "activo" [])
      (by decide)
  · exact c2_amended.2.2 store123 3 (by decide) (by decide) (by decide)
      (by decide) (by decide) "F" "f" "2024-07-02" "09:00" "P" "activo"
      (Meetup.mk 3 "F" "f" "2024-07-02T09:00:00+00:00" "P" "activo" [])
      (by decide)

/-- C3 counterexample: on a store whose representation exists but
cannot be parsed, `get_meetups` does not fail — it returns the empty
registry, fabricating data in place of the unparsable contents (the
code has no `CorruptStoreError` path at all). -/
theorem c3_counterexample :
    get_meetups StoreContent.unparsable = MeetupsData.mk [] := rfl

/-- C3 amended: for every store whose durable representation exists but
cannot be parsed, the load operation logs the error and silently
returns an empty registry instead of surfacing a `CorruptStoreError`;
consequently the allocator treats the corrupt store as empty and the
next create would receive id 1. -/
theorem c3_amended :
    get_meetups StoreContent.unparsable = MeetupsData.mk [] ∧
      generate_meetup_id StoreContent.unparsable = 1 := ⟨rfl, rfl⟩

/-- C4 counterexample: a create whose title and description are both
empty (hence empty after trimming) is not rejected with a
`ValidationError`: it succeeds and mutates the stored registry. -/
theorem c4_counterexample :
    ("".toList.all Char.isWhitespace) = true ∧
    (crear_quedada "" "" "2024-03-05" "09:30" "Plaza" "activo" initStore).1 =
      CreateResult.created
        (Meetup.mk 1 "" "" "2024-03-05T09:30:00+00:00" "Plaza" "activo" []) ∧
    (crear_quedada "" "" "2024-03-05" "09:30" "Plaza" "activo" initStore).2 ≠
      initStore := by
  decide

/-- C4 amended: `crear_quedada` performs no validation of the title or
the description — even when both are empty after trimming, a create
with valid date/time inputs succeeds, appending a record that stores
the empty fields verbatim; no `ValidationError` is raised. -/
theorem c4_amended (t de f h l e : String) (s : StoreContent)
    (_ht : t.toList.all Char.isWhitespace = true)
    (_hde : de.toList.all Char.isWhitespace = true)
    (hv : dateInputValid f h = true) :
    ∃ m : Meetup, crear_quedada t de f h l e s =
        (.created m, .parsable ⟨(get_meetups s).meetups ++ [m]⟩) ∧
      m.title = t ∧ m.description = de := by
  obtain ⟨m, heq, _, h1, h2, _, _, _⟩ := crear_quedada_valid t de f h l e s hv
  exact ⟨m, heq, h1, h2⟩

/-- Witness for the amended C4: a whitespace-only title and an empty
description pass creation on the empty registry without any validation
refusal. -/
theorem c4_witness :
    isValidationRejection
      (crear_quedada " " "" "2024-03-06" "10:15" "Plaza" "activo"
        initStore).1 = false := by
  obtain ⟨m, heq, _, _⟩ :=
    c4_amended " " "" "2024-03-06" "10:15" "Plaza" "activo" initStore
      (by decide) (by decide) (by decide)
  rw [heq]
  rfl

/-- C5 counterexample: a create whose status value "cerrado" lies
outside {activo, pendiente} is not rejected: it succeeds, the record is
stored with that status, and the stored registry changes. -/
theorem c5_counterexample :
    ("cerrado" ≠ "activo" ∧ "cerrado" ≠ "pendiente") ∧
    (crear_quedada "Cena" "Equipo" "2024-09-10" "21:00" "Bar" "cerrado"
        initStore).1 =
      CreateResult.created
        (Meetup.mk 1 "Cena" "Equipo" "2024-09-10T21:00:00+00:00" "Bar"
          "cerrado" []) ∧
    (crear_quedada "Cena" "Equipo" "2024-09-10" "21:00" "Bar" "cerrado"
        initStore).2 ≠ initStore := by
  decide

/-- C5 amended: the status restriction to {activo, pendiente} exists
only as platform-level command choices outside the handler; the handler
itself performs no status validation, so a create invocation carrying
any other status value (with valid date/time inputs) succeeds and the
record is stored with that status. -/
theorem c5_amended (t de f h l e : String) (s : StoreContent)
    (_he1 : e ≠ "activo") (_he2 : e ≠ "pendiente")
    (hv : dateInputValid f h = true) :
    ∃ m : Meetup, crear_quedada t de f h l e s =
        (.created m, .parsable ⟨(get_meetups s).meetups ++ [m]⟩) ∧
      m.status = e := by
  obtain ⟨m, heq, _, _, _, _, h5, _⟩ := crear_quedada_valid t de f h l e s hv
  exact ⟨m, heq, h5⟩

/-- Witness for the amended C5: status "cancelado" is accepted without
any validation refusal. -/
theorem c5_witness :
    isValidationRejection
      (crear_quedada "T" "D" "2024-09-11" "20:00" "Bar" "cancelado"
        initStore).1 = false := by
  obtain ⟨m, heq, _⟩ :=
    c5_amended "T" "D" "2024-09-11" "20:00" "Bar" "cancelado" initStore
      (by decide) (by decide) (by decide)
  rw [heq]
  rfl

/-- C6: a create whose date/time input does not denote a valid calendar
date and time of day (under the documented `YYYY-MM-DD` / `HH:MM`
format) is rejected with one of the validation refusals and the store
is untouched; a create whose input does denote a valid calendar date
and time passes the date-validation step and reaches creation. -/
theorem c6_date_validation (t de f h l e : String) (s : StoreContent) :
    (dateInputValid f h = false →
      (crear_quedada t de f h l e s).2 = s ∧
        isValidationRejection (crear_quedada t de f h l e s).1 = true) ∧
    (dateInputValid f h = true →
      ∃ m, (crear_quedada t de f h l e s).1 = .created m) := by
  constructor
  · exact fun hv => crear_quedada_invalid t de f h l e s hv
  · intro hv
    obtain ⟨m, heq, _⟩ := crear_quedada_valid t de f h l e s hv
    exact ⟨m, by rw [heq]⟩

/-- Witness for C6: day 30 of February, month 13, and hour 25 are all
rejected with a validation refusal, leaving the store unchanged. -/
theorem c6_witness :
    ((crear_quedada "T" "D" "2023-02-30" "18:30" "P" "activo"
        initStore).2 = initStore ∧
      isValidationRejection
        (crear_quedada "T" "D" "2023-02-30" "18:30" "P" "activo"
          initStore).1 = true) ∧
    ((crear_quedada "T" "D" "2023-13-01" "10:00" "P" "activo"
        initStore).2 = initStore ∧
      isValidationRejection
        (crear_quedada "T" "D" "2023-13-01" "10:00" "P" "activo"
          initStore).1 = true) ∧
    ((crear_quedada "T" "D" "2023-12-31" "25:00" "P" "activo"
        initStore).2 = initStore ∧
      isValidationRejection
        (crear_quedada "T" "D" "2023-12-31" "25:00" "P" "activo"
          initStore).1 = true) :=
  ⟨(c6_date_validation "T" "D" "2023-02-30" "18:30" "P" "activo"
      initStore).1 (by decide),
   (c6_date_validation "T" "D" "2023-13-01" "10:00" "P" "activo"
      initStore).1 (by decide),
   (c6_date_validation "T" "D" "2023-12-31" "25:00" "P" "activo"
      initStore).1 (by decide)⟩

/-- C7: for every store contents and every id not present in the
registry, the authorized delete fails with the not-found refusal for
that id and returns the store contents unchanged (no save occurs). -/
theorem c7_delete_not_found (s : StoreContent) (id : Nat)
    (h : id ∉ idsOf s) :
    eliminar_quedada true id s = (.notFoundError id, s) :=
  eliminar_quedada_not_mem id s h

/-- Witness for C7: deleting id 7 from the empty registry returns the
not-found refusal with the store untouched. -/
theorem c7_witness :
    eliminar_quedada true 7 initStore =
      (DeleteResult.notFoundError 7, initStore) :=
  c7_delete_not_found initStore 7 (by decide)

/-- C8: for every registry containing a record with the given id —
written as the decomposition l₁ ++ m :: l₂ in which only m carries the
id, as the distinct-ids invariant guarantees — the authorized delete
removes exactly that record, keeps the remaining records in order with
their fields unchanged, returns the removed record, and the ids of the
resulting registry no longer include that id. -/
theorem c8_delete_removes_exactly (s : StoreContent) (id : Nat)
    (l₁ : List Meetup) (m : Meetup) (l₂ : List Meetup)
    (hs : (get_meetups s).meetups = l₁ ++ m :: l₂)
    (hm : m.id = id)
    (h1 : ∀ x ∈ l₁, x.id ≠ id) (h2 : ∀ x ∈ l₂, x.id ≠ id) :
    eliminar_quedada true id s = (.deleted m, .parsable ⟨l₁ ++ l₂⟩) ∧
      id ∉ (l₁ ++ l₂).map Meetup.id ∧
      idsOf (eliminar_quedada true id s).2 = (l₁ ++ l₂).map Meetup.id := by
  have hr : removeById id (get_meetups s).meetups = some (m, l₁ ++ l₂) := by
    rw [hs]
    exact removeById_append l₁ m l₂ h1 hm
  have helim := eliminar_quedada_found hr
  refine ⟨helim, ?_, by rw [helim]; rfl⟩

  intro hin
  obtain ⟨x, hx, hxid⟩ := List.mem_map.mp hin
  rcases List.mem_append.mp hx with h3 | h3
  · exact h1 x h3 hxid
  · exact h2 x h3 hxid

/-- Witness for C8: deleting id 2 from the 1-2-3 registry returns the
id-2 record and leaves records 1 and 3, in order and untouched. -/
theorem c8_witness :
    eliminar_quedada true 2 store123 =
      (DeleteResult.deleted
        (Meetup.mk 2 "B" "b" "2024-06-02T11:00:00+00:00" "P" "activo" []),
       StoreContent.parsable
        ⟨[Meetup.mk 1 "A" "a" "2024-06-01T10:00:00+00:00" "P" "activo" [],
          Meetup.mk 3 "C" "c" "2024-06-03T12:00:00+00:00" "P"
            "pendiente" []]⟩) :=
  (c8_delete_removes_exactly store123 2
    [Meetup.mk 1 "A" "a" "2024-06-01T10:00:00+00:00" "P" "activo" []]
    (Meetup.mk 2 "B" "b" "2024-06-02T11:00:00+00:00" "P" "activo" [])
    [Meetup.mk 3 "C" "c" "2024-06-03T12:00:00+00:00" "P" "pendiente" []]
    rfl rfl (by decide) (by decide)).1

/-- C9 counterexample: `save_meetups` truncates the store file in place
before writing (plain `open(..., 'w')` followed by `json.dump`, with no
temporary file and atomic replace), so between the truncation and the
write the observable store contents are unparsable — neither the
previous valid state nor the fully-updated new state. -/
theorem c9_counterexample :
    StoreContent.unparsable ∈
        save_meetups_states
          (.parsable ⟨[Meetup.mk 1 "Picnic" "Bring food"
            "2024-06-01T18:00:00+00:00" "Park" "activo" []]⟩)
          (MeetupsData.mk []) ∧
      StoreContent.unparsable ≠
        StoreContent.parsable ⟨[Meetup.mk 1 "Picnic" "Bring food"
          "2024-06-01T18:00:00+00:00" "Park" "activo" []]⟩ ∧
      StoreContent.unparsable ≠
        StoreContent.parsable (MeetupsData.mk []) := by
  decide

/-- C9 amended: a save that runs to completion without interleaving
leaves the store holding exactly the fully-updated new state, but the
write is performed by truncating the store file in place and then
writing — not by writing to a temporary file and atomically replacing —
so a truncated, unparsable representation is observable by a load that
interleaves with the save. -/
theorem c9_amended (prev : StoreContent) (d : MeetupsData) :
    (save_meetups_states prev d).head? = some prev ∧
      (save_meetups_states prev d).getLast? = some (save_meetups d) ∧
      StoreContent.unparsable ∈ save_meetups_states prev d := by
  refine ⟨rfl, rfl, ?_⟩
  simp [save_meetups_states]

/-- C10: for every store contents and every id, a delete invocation by
a caller lacking the manage-messages permission returns the permission
refusal with the store unchanged; the check precedes the registry load
and the id lookup, so the refusal is returned even for an id that does
not exist in the registry (and even for an unparsable store). -/
theorem c10_permission_refusal (s : StoreContent) (id : Nat) :
    eliminar_quedada false id s = (.permissionError, s) := rfl

end PlatanoBot
